import Mathlib

/-!
Verification of the `fsm` state-machine engine (`src/fsm/StateMachine.hpp` and the
action helpers) against its natural-language specification.

Shallow embedding conventions:
* A `StateMachine<States...>` instance is a `StateMachine n S`: `n` state slots whose
  types are given by `S : Fin n -> Type`; the `std::tuple<States...> states` member is
  the dependent function `states : (i : Fin n) -> S i`; the engine object's address is
  modelled by the natural number `mid` (two live engines have distinct addresses).
* The `std::variant<States*...> currentState` member is a `StateRef n`: either a null
  pointer inside alternative `alt` (what a value-initialized variant of pointers holds),
  or a pointer `StateRef.mk owner slot` to slot `slot` of the tuple owned by the engine
  whose address is `owner`.  In the C++ code the variant alternative of a non-null
  pointer always equals the slot it addresses (all state types of one machine type are
  distinct, as `std::get<State>` requires), so `StateRef.mk` records that single index.
* `uint32_t` keys of the door example appear only in equality comparisons, so they are
  embedded as `Nat`.
* Dereferencing a null or foreign pointer is undefined behaviour in C++; the embedded
  `handle` returns `Option` and yields `none` exactly there.
-/

namespace fsm

/-- Model of a `States_i*` value stored in the `std::variant<States*...>` member:
`null alt` is a null pointer held in variant alternative `alt`, `mk owner slot` is a
pointer to slot `slot` of the state tuple of the engine whose address is `owner`. -/
inductive StateRef (n : ℕ) where
  | null (alt : Fin n)
  | mk (owner : ℕ) (slot : Fin n)
deriving DecidableEq

/-- The variant discriminant, `currentState.index()` in the source. -/
def StateRef.index {n : ℕ} : StateRef n → Fin n
  | StateRef.null alt => alt
  | StateRef.mk _ slot => slot

/-- `fsm::StateMachine<States...>` from `src/fsm/StateMachine.hpp`: the owned tuple of
state instances plus the tagged pointer to the current one.  `mid` models the address
of the engine object itself (`this`). -/
structure StateMachine (n : ℕ) (S : Fin n → Type) where
  mid : ℕ
  states : ∀ i : Fin n, S i
  currentState : StateRef n

/-- The n-argument constructor `StateMachine(States... states_in)`: store the supplied
instances and point `currentState` at `&std::get<0>(states)`. -/
def StateMachine.mkOf {n : ℕ} {S : Fin n → Type} (id : ℕ) (statesIn : ∀ i, S i)
    (h : 0 < n) : StateMachine n S :=
  { mid := id, states := statesIn, currentState := StateRef.mk id ⟨0, h⟩ }

/-- The default constructor `StateMachine()`: default-construct every state (possible
exactly when every state type is default-constructible, modelled by `Inhabited`) and
point `currentState` at `&std::get<0>(states)`. -/
def StateMachine.mkDefault {n : ℕ} (S : Fin n → Type) [∀ i, Inhabited (S i)] (id : ℕ)
    (h : 0 < n) : StateMachine n S :=
  { mid := id, states := fun _ => default, currentState := StateRef.mk id ⟨0, h⟩ }

/-- The copy constructor: copy the tuple, then re-derive `currentState` as
`runtime_get(states, other.currentState.index())`, a pointer into the NEW tuple at the
positional index of the old current state (`src/fsm/StateMachine.hpp:23-25`,
`runtime_get` from the tuple tools). `newId` is the address of the newly built engine. -/
def StateMachine.copyCtor {n : ℕ} {S : Fin n → Type} (newId : ℕ)
    (other : StateMachine n S) : StateMachine n S :=
  { mid := newId, states := other.states,
    currentState := StateRef.mk newId other.currentState.index }

/-- The move constructor (`src/fsm/StateMachine.hpp:27-29`): transfers the tuple (for
our value types a move leaves the same element values in the destination) and
re-derives `currentState` the same way as the copy constructor. -/
def StateMachine.moveCtor {n : ℕ} {S : Fin n → Type} (newId : ℕ)
    (other : StateMachine n S) : StateMachine n S :=
  { mid := newId, states := other.states,
    currentState := StateRef.mk newId other.currentState.index }

/-- Copy assignment (`src/fsm/StateMachine.hpp:31-37`): guarded by `this != &other`
(address comparison, modelled by `mid`); otherwise copies the tuple and re-derives
`currentState` into the receiver's own tuple by the source's variant index. -/
def StateMachine.copyAssign {n : ℕ} {S : Fin n → Type} (self other : StateMachine n S) :
    StateMachine n S :=
  if self.mid = other.mid then self
  else
    { self with
      states := other.states
      currentState := StateRef.mk self.mid other.currentState.index }

/-- Move assignment (`src/fsm/StateMachine.hpp:39-45`): same shape as copy assignment;
moving the tuple leaves the destination with the source's element values. -/
def StateMachine.moveAssign {n : ℕ} {S : Fin n → Type} (self other : StateMachine n S) :
    StateMachine n S :=
  if self.mid = other.mid then self
  else
    { self with
      states := other.states
      currentState := StateRef.mk self.mid other.currentState.index }

/-- `transitionTo<State>()` (`src/fsm/StateMachine.hpp:47-52`): take the engine's own
instance of the target type (slot `j`, types are distinct so the type names the slot),
point `currentState` at it, and return a reference to it.  The returned reference is
modelled by also returning the value now stored in slot `j`. -/
def StateMachine.transitionToIdx {n : ℕ} {S : Fin n → Type} (m : StateMachine n S)
    (j : Fin n) : StateMachine n S :=
  { m with currentState := StateRef.mk m.mid j }

/-- `transitionTo` with its return value: the machine after the switch paired with the
target state the returned reference designates. -/
def StateMachine.transitionToRet {n : ℕ} {S : Fin n → Type} (m : StateMachine n S)
    (j : Fin n) : StateMachine n S × S j :=
  (m.transitionToIdx j, (m.transitionToIdx j).states j)

/-- `fsm::Nothing` (the NoOp action): an empty struct whose `execute` does nothing. -/
structure Nothing where

/-- `Nothing::execute(Machine&, State&, const Event&)` has an empty body: the machine
(and everything else) is left untouched.  The machine-relevant effect of an action is
its transformation of the engine, so the embedded `execute` is the identity. -/
def Nothing.execute {α : Type} (_self : Nothing) (machine : α) : α :=
  machine

/-- `fsm::OneOf<Actions...>` (`src/unnamed/part_001`): a `std::variant<Actions...>`
member `options`, holding exactly one alternative.  `A j` is the type of alternative
`j`; the sigma value records the discriminant together with the held action. -/
structure OneOf (k : ℕ) (A : Fin k → Type) where
  options : Σ j : Fin k, A j

/-- The converting constructor `OneOf(T&& arg)`: the variant is initialized from the
argument, so the discriminant is the alternative index of the argument's type, fixed
at construction. -/
def OneOf.ofArg {k : ℕ} {A : Fin k → Type} (j : Fin k) (arg : A j) : OneOf k A :=
  { options := ⟨j, arg⟩ }

/-- `OneOf::execute`: `std::visit` over `options`, forwarding `execute` (with the same
machine/state/event arguments, summarized as the engine transformation `ex j`) to
whichever alternative is held. -/
def OneOf.execute {k : ℕ} {A : Fin k → Type} {α : Type} (o : OneOf k A)
    (ex : ∀ j : Fin k, A j → α → α) (machine : α) : α :=
  ex o.options.1 o.options.2 machine

/-- The two alternative types of `Maybe<Action> = OneOf<Action, Nothing>`. -/
def MaybeAlts (Action : Type) : Fin 2 → Type
  | ⟨0, _⟩ => Action
  | ⟨1, _⟩ => Nothing

/-- `fsm::Maybe<Action>` (`src/unnamed/part_002`): exactly `OneOf<Action, Nothing>`,
inheriting its constructors. -/
def Maybe (Action : Type) : Type :=
  OneOf 2 (MaybeAlts Action)

/-- The `execute` dispatch table of a `Maybe<Action>`: alternative 0 runs the wrapped
action's `execute`, alternative 1 runs `Nothing::execute`. -/
def maybeExec {Action α : Type} (exA : Action → α → α) :
    ∀ j : Fin 2, MaybeAlts Action j → α → α
  | ⟨0, _⟩ => exA
  | ⟨1, _⟩ => fun nop => nop.execute

/-- `fsm::ByDefault<Action>` (`src/fsm/actions/ByDefault.hpp`): a stateless base
supplying a catch-all handler. -/
structure ByDefault (Action : Type) where

/-- `ByDefault<Action>::handle(const Event&) const`: for an event of ANY type, return
`Action{}` (the value-initialized action, modelled by `default`), reading nothing from
the event and touching no state. -/
def ByDefault.handle {Action : Type} [Inhabited Action] (_self : ByDefault Action)
    {Event : Type} (_event : Event) : Action :=
  (default : Action)

/-- The action value a handler returns, as far as the engine's execution semantics can
observe it: after `OneOf`/`Maybe` forwarding, what runs is either `Nothing` or a
`TransitionTo<Target>` (target = a slot of the machine, since the engine's state types
are distinct). -/
inductive ActionVal (n : ℕ) where
  | nothing
  | transitionTo (target : Fin n)
deriving DecidableEq

/-- The behaviour the state types of one machine contribute, one machine type at a
time: `handle i s e` is the action value state `i` (with data `s`) returns for event
`e` (`handle` members are mandatory per event type, so this is total); `onLeave i s e`
and `onEnter i s e` are `none` when state type `i` declares no such hook for `e`'s
event type (the SFINAE probe fails and the call is skipped), and `some s'` when the
hook exists and rewrites the state's data to `s'`. -/
structure StateSpec (n : ℕ) (S : Fin n → Type) (E : Type) where
  handle : ∀ i : Fin n, S i → E → ActionVal n
  onLeave : ∀ i : Fin n, S i → E → Option (S i)
  onEnter : ∀ i : Fin n, S i → E → Option (S i)

/-- Modelled from the spec: step (1) of `TransitionTo<Target>::execute`
(`fsm/actions/TransitionTo.h` is not under `src/`; spec section 4.2): invoke
`sourceState.onLeave(event)` if that state type declares the hook for this event type,
silently skip otherwise.  The hook mutates the source state's own data in place. -/
def applyLeave {n : ℕ} {S : Fin n → Type} {E : Type} (spec : StateSpec n S E)
    (m : StateMachine n S) (src : Fin n) (e : E) : StateMachine n S :=
  match spec.onLeave src (m.states src) e with
  | none => m
  | some s' => { m with states := Function.update m.states src s' }

/-- Modelled from the spec: step (3) of `TransitionTo<Target>::execute`: invoke
`target.onEnter(event)` on the reference obtained from `transitionTo` if the target
type declares the hook for this event type, silently skip otherwise. -/
def applyEnter {n : ℕ} {S : Fin n → Type} {E : Type} (spec : StateSpec n S E)
    (m : StateMachine n S) (target : Fin n) (e : E) : StateMachine n S :=
  match spec.onEnter target (m.states target) e with
  | none => m
  | some s' => { m with states := Function.update m.states target s' }

/-- Modelled from the spec: `TransitionTo<Target>::execute(machine, sourceState, event)`
(`fsm/actions/TransitionTo.h` is not under `src/`; spec section 4.2 fixes the order):
(1) `sourceState.onLeave(event)` if declared, (2) `machine.transitionTo<Target>()`
switching the current-state pointer and yielding the target reference,
(3) `target.onEnter(event)` if declared. -/
def transitionRequestExecute {n : ℕ} {S : Fin n → Type} {E : Type}
    (spec : StateSpec n S E) (m : StateMachine n S) (src : Fin n) (e : E)
    (target : Fin n) : StateMachine n S :=
  applyEnter spec ((applyLeave spec m src e).transitionToIdx target) target e

/-- The engine transformation of an action value, as `action.execute(machine,
*statePtr, event)` performs it: `Nothing` leaves the machine alone, a transition
request runs `transitionRequestExecute`. -/
def ActionVal.exec {n : ℕ} {S : Fin n → Type} {E : Type} (a : ActionVal n)
    (spec : StateSpec n S E) (m : StateMachine n S) (src : Fin n) (e : E) :
    StateMachine n S :=
  match a with
  | ActionVal.nothing => m
  | ActionVal.transitionTo target => transitionRequestExecute spec m src e target

/-- `StateMachine::handle` / `handleBy` (`src/fsm/StateMachine.hpp:54-66`):
`std::visit` the current-state pointer, call the pointed-to state's `handle(event)`,
then `action.execute(*this, *statePtr, event)`.  Dereferencing a null pointer, or a
pointer into another engine's tuple (memory this machine does not own), is undefined
behaviour and yields `none`. -/
def StateMachine.handle {n : ℕ} {S : Fin n → Type} {E : Type} (m : StateMachine n S)
    (spec : StateSpec n S E) (e : E) : Option (StateMachine n S) :=
  match m.currentState with
  | StateRef.null _ => none
  | StateRef.mk owner slot =>
    if owner = m.mid then
      some ((spec.handle slot (m.states slot) e).exec spec m slot e)
    else none

/-! The door example from `src/example/main.cpp`: `Door = StateMachine<ClosedState,
OpenState, LockedState>` over events Open/Close/Lock/Unlock.  `ClosedState` and
`OpenState` carry no data; `LockedState` stores a `uint32_t key`.  The handler tables
below transcribe the `Will<ByDefault<...>, On<...>, ...>` compositions of
`main.cpp:31-40` (`On.h`/`Will.h` are not under `src/`; per the spec,
`SingleEventHandler<E,A>` supplies exactly `handle(E) -> A` returning the
default-constructed action, and `Merge`/`Will` unions the fragments with no runtime
behaviour of its own) and the handwritten members of `LockedState`
(`main.cpp:42-67`). -/

/-- The four event types of the example (`main.cpp:9-25`). -/
inductive DoorEvent where
  | openEvent
  | closeEvent
  | lockEvent (newKey : ℕ)
  | unlockEvent (key : ℕ)
deriving DecidableEq

/-- The data of `LockedState`: its private `uint32_t key` (`main.cpp:66`). -/
structure LockedData where
  key : ℕ
deriving DecidableEq

/-- The state-slot types of `Door`: slot 0 = `ClosedState`, slot 1 = `OpenState`,
slot 2 = `LockedState`. -/
def DoorS : Fin 3 → Type
  | ⟨0, _⟩ => Unit
  | ⟨1, _⟩ => Unit
  | ⟨2, _⟩ => LockedData

/-- The `handle` members of the three states.  `ClosedState`: `On<LockEvent,
TransitionTo<LockedState>>`, `On<OpenEvent, TransitionTo<OpenState>>`, else
`ByDefault<Nothing>`.  `OpenState`: `On<CloseEvent, TransitionTo<ClosedState>>`, else
`ByDefault<Nothing>`.  `LockedState`: a `Maybe<TransitionTo<ClosedState>>` on
`UnlockEvent` holding the transition exactly when `e.key == key`, else
`ByDefault<Nothing>`. -/
def doorHandle : ∀ i : Fin 3, DoorS i → DoorEvent → ActionVal 3
  | ⟨0, _⟩, _, DoorEvent.lockEvent _ => ActionVal.transitionTo ⟨2, by omega⟩
  | ⟨0, _⟩, _, DoorEvent.openEvent => ActionVal.transitionTo ⟨1, by omega⟩
  | ⟨0, _⟩, _, _ => ActionVal.nothing
  | ⟨1, _⟩, _, DoorEvent.closeEvent => ActionVal.transitionTo ⟨0, by omega⟩
  | ⟨1, _⟩, _, _ => ActionVal.nothing
  | ⟨2, _⟩, s, DoorEvent.unlockEvent k =>
    if k = s.key then ActionVal.transitionTo ⟨0, by omega⟩ else ActionVal.nothing
  | ⟨2, _⟩, _, _ => ActionVal.nothing

/-- The only hook in the example: `LockedState::onEnter(const LockEvent& e)` sets
`key = e.newKey` (`main.cpp:52-55`).  No other state/event pair declares a hook. -/
def doorOnEnter : ∀ i : Fin 3, DoorS i → DoorEvent → Option (DoorS i)
  | ⟨2, _⟩, _, DoorEvent.lockEvent n => some (LockedData.mk n)
  | _, _, _ => none

/-- The full behaviour table of the door machine: no state declares `onLeave`. -/
def doorSpec : StateSpec 3 DoorS DoorEvent :=
  { handle := doorHandle, onLeave := fun _ _ _ => none, onEnter := doorOnEnter }

/-- The constructor arguments of `main.cpp:73`: `ClosedState{}, OpenState{},
LockedState{0x11}`. -/
def doorInit : ∀ i : Fin 3, DoorS i
  | ⟨0, _⟩ => ()
  | ⟨1, _⟩ => ()
  | ⟨2, _⟩ => LockedData.mk 0x11

/-- The freshly constructed `door` of `main.cpp:73` (address modelled as 0). -/
def door0 : StateMachine 3 DoorS :=
  StateMachine.mkOf 0 doorInit (by omega)

/-- The door after `door.handle(LockEvent{1234})`. -/
def door1 : StateMachine 3 DoorS :=
  (door0.handle doorSpec (DoorEvent.lockEvent 1234)).getD door0

/-- The door after the further `handle(UnlockEvent{2})` (key mismatch) and
`handle(UnlockEvent{1234})` (key match). -/
def door2 : StateMachine 3 DoorS :=
  (door1.handle doorSpec (DoorEvent.unlockEvent 1234)).getD door0

example : door0.handle doorSpec (DoorEvent.lockEvent 1234) = some door1 := rfl

example : door1.currentState = StateRef.mk 0 ⟨2, by omega⟩ := rfl

example : door1.states ⟨2, by omega⟩ = LockedData.mk 1234 := rfl

example : door1.handle doorSpec (DoorEvent.unlockEvent 2) = some door1 := rfl

example : door2.currentState = StateRef.mk 0 ⟨0, by omega⟩ := rfl

/-! Helper lemmas about the transition steps. -/

lemma transitionToIdx_mid {n : ℕ} {S : Fin n → Type} (m : StateMachine n S) (j : Fin n) :
    (m.transitionToIdx j).mid = m.mid :=
  rfl

lemma transitionToIdx_states {n : ℕ} {S : Fin n → Type} (m : StateMachine n S)
    (j : Fin n) : (m.transitionToIdx j).states = m.states :=
  rfl

lemma transitionToIdx_currentState {n : ℕ} {S : Fin n → Type} (m : StateMachine n S)
    (j : Fin n) : (m.transitionToIdx j).currentState = StateRef.mk m.mid j :=
  rfl

lemma applyLeave_mid {n : ℕ} {S : Fin n → Type} {E : Type} (spec : StateSpec n S E)
    (m : StateMachine n S) (src : Fin n) (e : E) :
    (applyLeave spec m src e).mid = m.mid := by
  cases h : spec.onLeave src (m.states src) e <;> simp [applyLeave, h]

lemma applyLeave_currentState {n : ℕ} {S : Fin n → Type} {E : Type}
    (spec : StateSpec n S E) (m : StateMachine n S) (src : Fin n) (e : E) :
    (applyLeave spec m src e).currentState = m.currentState := by
  cases h : spec.onLeave src (m.states src) e <;> simp [applyLeave, h]

lemma applyEnter_mid {n : ℕ} {S : Fin n → Type} {E : Type} (spec : StateSpec n S E)
    (m : StateMachine n S) (target : Fin n) (e : E) :
    (applyEnter spec m target e).mid = m.mid := by
  cases h : spec.onEnter target (m.states target) e <;> simp [applyEnter, h]

lemma applyEnter_currentState {n : ℕ} {S : Fin n → Type} {E : Type}
    (spec : StateSpec n S E) (m : StateMachine n S) (target : Fin n) (e : E) :
    (applyEnter spec m target e).currentState = m.currentState := by
  cases h : spec.onEnter target (m.states target) e <;> simp [applyEnter, h]

lemma transitionRequestExecute_mid {n : ℕ} {S : Fin n → Type} {E : Type}
    (spec : StateSpec n S E) (m : StateMachine n S) (src : Fin n) (e : E)
    (target : Fin n) : (transitionRequestExecute spec m src e target).mid = m.mid := by
  simp [transitionRequestExecute, applyEnter_mid, transitionToIdx_mid, applyLeave_mid]

lemma transitionRequestExecute_currentState {n : ℕ} {S : Fin n → Type} {E : Type}
    (spec : StateSpec n S E) (m : StateMachine n S) (src : Fin n) (e : E)
    (target : Fin n) :
    (transitionRequestExecute spec m src e target).currentState
      = StateRef.mk m.mid target := by
  simp [transitionRequestExecute, applyEnter_currentState, transitionToIdx_currentState,
    applyLeave_mid]

lemma handle_eq_some {n : ℕ} {S : Fin n → Type} {E : Type} {spec : StateSpec n S E}
    {m m' : StateMachine n S} {e : E} (i : Fin n)
    (hi : m.currentState = StateRef.mk m.mid i) (hs : m.handle spec e = some m') :
    m' = (spec.handle i (m.states i) e).exec spec m i e := by
  simp [StateMachine.handle, hi] at hs
  exact hs.symm

/-- Machine values reachable by constructing an engine and then performing any finite
sequence of the engine's operations on it.  `construct` also covers the default
constructor, whose result is `mkOf id (fun i => default) h`; the copy/move/assignment
steps take an arbitrary source machine of the same machine type. -/
inductive Reachable {n : ℕ} {S : Fin n → Type} {E : Type} (spec : StateSpec n S E) :
    StateMachine n S → Prop where
  | construct (id : ℕ) (statesIn : ∀ i, S i) (h : 0 < n) :
      Reachable spec (StateMachine.mkOf id statesIn h)
  | handleStep {m m' : StateMachine n S} (e : E) :
      Reachable spec m → m.handle spec e = some m' → Reachable spec m'
  | transitionStep {m : StateMachine n S} (j : Fin n) :
      Reachable spec m → Reachable spec (m.transitionToIdx j)
  | copyStep {m : StateMachine n S} (newId : ℕ) :
      Reachable spec m → Reachable spec (StateMachine.copyCtor newId m)
  | moveStep {m : StateMachine n S} (newId : ℕ) :
      Reachable spec m → Reachable spec (StateMachine.moveCtor newId m)
  | copyAssignStep {m : StateMachine n S} (other : StateMachine n S) :
      Reachable spec m → Reachable spec (m.copyAssign other)
  | moveAssignStep {m : StateMachine n S} (other : StateMachine n S) :
      Reachable spec m → Reachable spec (m.moveAssign other)

/-- C1: when the current state `src` handles event `e` with a
`TransitionRequest<target>` action, `handle` performs exactly the three steps in
order — `onLeave` on the source (skipped, leaving the machine untouched, when the
source declares no such hook), then the engine's `transitionTo`, then `onEnter` on the
target (skipped likewise) — and the leave hook runs while `src` is still current
while the enter hook runs while `target` is already current.  The whole composition is
one `handle` call, so no other event is processed between the two hook calls. -/
theorem c1_transition_order {n : ℕ} {S : Fin n → Type} {E : Type}
    (spec : StateSpec n S E) (m : StateMachine n S) (src target : Fin n) (e : E)
    (hcur : m.currentState = StateRef.mk m.mid src)
    (hact : spec.handle src (m.states src) e = ActionVal.transitionTo target) :
    m.handle spec e
      = some (applyEnter spec ((applyLeave spec m src e).transitionToIdx target)
          target e)
    ∧ (applyLeave spec m src e).currentState = StateRef.mk m.mid src
    ∧ (spec.onLeave src (m.states src) e = none → applyLeave spec m src e = m)
    ∧ ((applyLeave spec m src e).transitionToIdx target).currentState
        = StateRef.mk m.mid target
    ∧ (applyEnter spec ((applyLeave spec m src e).transitionToIdx target)
        target e).currentState = StateRef.mk m.mid target := by
  refine ⟨?_, ?_, ?_, ?_, ?_⟩
  · simp [StateMachine.handle, hcur, hact, ActionVal.exec, transitionRequestExecute]
  · rw [applyLeave_currentState, hcur]
  · intro hnone
    simp [applyLeave, hnone]
  · rw [transitionToIdx_currentState, applyLeave_mid]
  · rw [applyEnter_currentState, transitionToIdx_currentState, applyLeave_mid]

/-- Witness for C1: the door machine in `ClosedState` handling `LockEvent{1234}`
performs leave-then-switch-then-enter towards `LockedState` (slot 2). -/
theorem c1_transition_order_witness :
    door0.handle doorSpec (DoorEvent.lockEvent 1234)
      = some (applyEnter doorSpec
          ((applyLeave doorSpec door0 ⟨0, by omega⟩
            (DoorEvent.lockEvent 1234)).transitionToIdx ⟨2, by omega⟩)
          ⟨2, by omega⟩ (DoorEvent.lockEvent 1234)) :=
  (c1_transition_order doorSpec door0 ⟨0, by omega⟩ ⟨2, by omega⟩
    (DoorEvent.lockEvent 1234) rfl rfl).1

/-- C2: every machine reachable by construction followed by any finite sequence of
engine operations has exactly one current state, and its current-state tag is a
non-null pointer into that engine's own tuple (owner is the engine's own address, the
slot is one of the `n` owned instances, so never a stray and never another engine's
instance). -/
theorem c2_exactly_one_current {n : ℕ} {S : Fin n → Type} {E : Type}
    (spec : StateSpec n S E) (m : StateMachine n S) (h : Reachable spec m) :
    ∃! i : Fin n, m.currentState = StateRef.mk m.mid i := by
  have hg : ∃ i : Fin n, m.currentState = StateRef.mk m.mid i := by
    induction h with
    | construct id statesIn h0 => exact ⟨⟨0, h0⟩, rfl⟩
    | handleStep e hr hs ih =>
      obtain ⟨i, hi⟩ := ih
      have hm := handle_eq_some i hi hs
      cases hact : (spec.handle i _ e) with
      | nothing =>
        rw [hact] at hm
        exact ⟨i, by rw [hm]; exact hi⟩
      | transitionTo t =>
        rw [hact] at hm
        refine ⟨t, ?_⟩
        rw [hm]
        rw [show (ActionVal.transitionTo t).exec spec _ i e
              = transitionRequestExecute spec _ i e t from rfl]
        rw [transitionRequestExecute_currentState, transitionRequestExecute_mid]
    | transitionStep j hr ih =>
      exact ⟨j, by rw [transitionToIdx_currentState, transitionToIdx_mid]⟩
    | copyStep newId hr ih => exact ⟨_, rfl⟩
    | moveStep newId hr ih => exact ⟨_, rfl⟩
    | copyAssignStep other hr ih =>
      rename_i m0
      by_cases hmid : m0.mid = other.mid
      · simpa [StateMachine.copyAssign, hmid] using ih
      · exact ⟨other.currentState.index, by simp [StateMachine.copyAssign, hmid]⟩
    | moveAssignStep other hr ih =>
      rename_i m0
      by_cases hmid : m0.mid = other.mid
      · simpa [StateMachine.moveAssign, hmid] using ih
      · exact ⟨other.currentState.index, by simp [StateMachine.moveAssign, hmid]⟩
  obtain ⟨i, hi⟩ := hg
  refine ⟨i, hi, fun j hj => ?_⟩
  rw [hi] at hj
  injection hj with howner hslot
  exact hslot.symm

/-- Witness for C2: the freshly constructed door machine satisfies the invariant. -/
theorem c2_exactly_one_current_witness :
    ∃! i : Fin 3, door0.currentState = StateRef.mk door0.mid i :=
  c2_exactly_one_current doorSpec door0
    (Reachable.construct 0 doorInit (by omega))

/-- C3: copying (and moving, and copy/move-assigning between distinct objects)
duplicates the whole owned tuple and re-derives the new current-state reference as a
pointer into the NEW owned tuple at the source's positional index `b`.  The slot is
chosen by index alone — the statement holds for every `m`, whatever the state values
are, so equal-valued but distinct slots cannot be confused.  In particular, after
copying a machine whose current slot is `b` and then transitioning the original to any
slot `c`, the original's current slot is `c` while the copy's current-state reference
is still its own slot `b`; the copy's tuple is the value copied at copy time,
independent of the original. -/
theorem c3_copy_independence {n : ℕ} {S : Fin n → Type} (m : StateMachine n S)
    (newId : ℕ) (b : Fin n) (hcur : m.currentState = StateRef.mk m.mid b) :
    (StateMachine.copyCtor newId m).states = m.states
    ∧ (StateMachine.copyCtor newId m).currentState = StateRef.mk newId b
    ∧ (StateMachine.moveCtor newId m).states = m.states
    ∧ (StateMachine.moveCtor newId m).currentState = StateRef.mk newId b
    ∧ (∀ self : StateMachine n S, self.mid ≠ m.mid →
        (self.copyAssign m).states = m.states
        ∧ (self.copyAssign m).currentState = StateRef.mk self.mid b
        ∧ (self.moveAssign m).states = m.states
        ∧ (self.moveAssign m).currentState = StateRef.mk self.mid b)
    ∧ (∀ c : Fin n,
        (m.transitionToIdx c).currentState = StateRef.mk m.mid c
        ∧ (StateMachine.copyCtor newId m).currentState = StateRef.mk newId b) := by
  have hidx : m.currentState.index = b := by rw [hcur]; rfl
  refine ⟨rfl, ?_, rfl, ?_, ?_, ?_⟩
  · simp [StateMachine.copyCtor, hidx]
  · simp [StateMachine.moveCtor, hidx]
  · intro self hne
    refine ⟨?_, ?_, ?_, ?_⟩ <;>
      simp [StateMachine.copyAssign, StateMachine.moveAssign, hne, hidx]
  · intro c
    exact ⟨rfl, by simp [StateMachine.copyCtor, hidx]⟩

/-- Witness for C3: copying the door machine that is currently `LockedState` (slot 2,
after the lock event), then transitioning the original, keeps the copy at slot 2. -/
theorem c3_copy_independence_witness :
    (StateMachine.copyCtor 5 door1).states = door1.states
    ∧ (StateMachine.copyCtor 5 door1).currentState = StateRef.mk 5 ⟨2, by omega⟩ :=
  ⟨(c3_copy_independence door1 5 ⟨2, by omega⟩ rfl).1,
   (c3_copy_independence door1 5 ⟨2, by omega⟩ rfl).2.1⟩

/-- C4: both the n-argument constructor (with the caller's instances) and the
default constructor (available when every state type is default-constructible)
produce a fully initialized machine — the stated owned tuple, the machine's own
address as pointer owner — whose current state is the owned instance of the
first-listed state type, slot 0. -/
theorem c4_constructors_initial_state {n : ℕ} {S : Fin n → Type}
    [∀ i : Fin n, Inhabited (S i)] (id : ℕ) (statesIn : ∀ i : Fin n, S i)
    (h : 0 < n) :
    (StateMachine.mkOf id statesIn h).currentState = StateRef.mk id ⟨0, h⟩
    ∧ (StateMachine.mkOf id statesIn h).states = statesIn
    ∧ (StateMachine.mkOf id statesIn h).mid = id
    ∧ (StateMachine.mkDefault S id h).currentState = StateRef.mk id ⟨0, h⟩
    ∧ ((StateMachine.mkDefault S id h).states = fun i => (default : S i))
    ∧ (StateMachine.mkDefault S id h).mid = id :=
  ⟨rfl, rfl, rfl, rfl, rfl, rfl⟩

/-- Witness for C4: a concrete single-state machine over `Unit` (a state type that is
default-constructible), built with address 7. -/
theorem c4_constructors_initial_state_witness :
    (StateMachine.mkOf (S := fun _ : Fin 1 => Unit) 7 (fun _ => ())
        (by omega)).currentState = StateRef.mk 7 ⟨0, by omega⟩
    ∧ (StateMachine.mkDefault (fun _ : Fin 1 => Unit) 7
        (by omega)).currentState = StateRef.mk 7 ⟨0, by omega⟩ :=
  ⟨(c4_constructors_initial_state 7 (fun _ => ()) (by omega)).1,
   (c4_constructors_initial_state 7 (fun _ => ()) (by omega)).2.2.2.1⟩

/-- C5: `transitionTo<Target>` points the current-state reference at the engine's own
owned instance of the target (slot `j` of its own tuple) and returns a mutable
reference to that very instance, and changes nothing else: the owned tuple and the
engine address are untouched.  Its definition takes no handler/hook table at all, so
it cannot invoke any `onLeave`/`onEnter` hook, and no state instance's data changes. -/
theorem c5_transitionTo_bookkeeping {n : ℕ} {S : Fin n → Type}
    (m : StateMachine n S) (j : Fin n) :
    (m.transitionToIdx j).currentState = StateRef.mk m.mid j
    ∧ (m.transitionToIdx j).states = m.states
    ∧ (m.transitionToIdx j).mid = m.mid
    ∧ (m.transitionToRet j).1 = m.transitionToIdx j
    ∧ (m.transitionToRet j).2 = (m.transitionToIdx j).states j :=
  ⟨rfl, rfl, rfl, rfl, rfl⟩

/-- C6: when the current state's handler for an event returns the NoOp action
(`Nothing`), `handle` returns the machine completely unchanged — same current-state
reference, same owned tuple, byte for byte the very machine value. -/
theorem c6_noop_frame {n : ℕ} {S : Fin n → Type} {E : Type} (spec : StateSpec n S E)
    (m : StateMachine n S) (src : Fin n) (e : E)
    (hcur : m.currentState = StateRef.mk m.mid src)
    (hact : spec.handle src (m.states src) e = ActionVal.nothing) :
    m.handle spec e = some m := by
  simp [StateMachine.handle, hcur, hact, ActionVal.exec]

/-- Witness for C6: the locked door (key 1234) handling the mismatching
`UnlockEvent{2}` is left exactly as it was. -/
theorem c6_noop_frame_witness :
    door1.handle doorSpec (DoorEvent.unlockEvent 2) = some door1 :=
  c6_noop_frame doorSpec door1 ⟨2, Nat.lt_of_sub_eq_succ rfl⟩
    (DoorEvent.unlockEvent 2) rfl rfl

/-- C7: the door example scenario.  Starting from `{Closed, Open, Locked(key=0x11)}`
with `ClosedState` (slot 0) current: `Lock(newKey=1234)` makes `LockedState` (slot 2)
current with its key rewritten to 1234 by `onEnter`; `Unlock(key=2)` mismatches, the
`Maybe` holds `Nothing`, and the machine — current state and key alike — is exactly
unchanged; `Unlock(key=1234)` matches and makes `ClosedState` current again. -/
theorem c7_door_scenario :
    door0.currentState = StateRef.mk 0 ⟨0, Nat.lt_of_sub_eq_succ rfl⟩
    ∧ door0.states ⟨2, Nat.lt_of_sub_eq_succ rfl⟩ = LockedData.mk 0x11
    ∧ door0.handle doorSpec (DoorEvent.lockEvent 1234) = some door1
    ∧ door1.currentState = StateRef.mk 0 ⟨2, Nat.lt_of_sub_eq_succ rfl⟩
    ∧ door1.states ⟨2, Nat.lt_of_sub_eq_succ rfl⟩ = LockedData.mk 1234
    ∧ door1.handle doorSpec (DoorEvent.unlockEvent 2) = some door1
    ∧ door1.handle doorSpec (DoorEvent.unlockEvent 1234) = some door2
    ∧ door2.currentState = StateRef.mk 0 ⟨0, Nat.lt_of_sub_eq_succ rfl⟩ :=
  ⟨rfl, rfl, rfl, rfl, rfl, rfl, rfl, rfl⟩

/-- C8: a `OneOf<A1..An>` built from an argument of alternative `j` holds exactly that
alternative with discriminant `j` fixed at construction, and its `execute` performs
exactly the held alternative's `execute` on the same arguments; `Maybe<Action>` is by
definition `OneOf<Action, Nothing>`, so executing it either performs the wrapped
action's effect or, when it holds `Nothing`, leaves the machine untouched. -/
theorem c8_oneof_forwarding {k : ℕ} {A : Fin k → Type} {α : Type} (j : Fin k)
    (arg : A j) (ex : ∀ i : Fin k, A i → α → α) (machine : α) {Action : Type}
    (o : Maybe Action) (exA : Action → α → α) (machine2 : α) :
    (OneOf.ofArg j arg).options = ⟨j, arg⟩
    ∧ (OneOf.ofArg j arg).execute ex machine = ex j arg machine
    ∧ Maybe Action = OneOf 2 (MaybeAlts Action)
    ∧ ((∃ a : Action, o.execute (maybeExec exA) machine2 = exA a machine2)
        ∨ o.execute (maybeExec exA) machine2 = machine2) := by
  refine ⟨rfl, rfl, rfl, ?_⟩
  obtain ⟨⟨j2, held⟩⟩ := o
  match j2, held with
  | ⟨0, _⟩, a => exact Or.inl ⟨a, rfl⟩
  | ⟨1, _⟩, nop => exact Or.inr rfl

/-- C9: `ByDefault<Action>::handle` accepts an event of any type whatsoever and
returns the fixed default-constructed `Action{}`: the result never depends on the
event (the same value comes back for any two events of any two types), and the
handler reads and writes no state — it is a function of nothing at all. -/
theorem c9_bydefault_constant {Action : Type} [Inhabited Action]
    (b b' : ByDefault Action) {E E' : Type} (e : E) (e' : E') :
    b.handle e = (default : Action) ∧ b.handle e = b'.handle e' :=
  ⟨rfl, rfl⟩

/-- C10: self-assignment is a no-op: both `operator=(const StateMachine&)` and
`operator=(StateMachine&&)` first compare `this != &other`, so assigning a machine to
itself leaves the owned tuple and the current-state reference exactly as they were —
the result is the very same machine value, which the operator returns. -/
theorem c10_self_assignment {n : ℕ} {S : Fin n → Type} (m : StateMachine n S) :
    m.copyAssign m = m ∧ m.moveAssign m = m := by
  constructor <;> simp [StateMachine.copyAssign, StateMachine.moveAssign]

end fsm
